import Mathlib

/-!
# Offer catalog service of courses-backend

A shallow embedding of `internal/service/offers/offers.go` and of the error
table `internal/domain/errors.go`, followed by theorems about the three lookup
projections (by package, by module, by course) and about `Create` / `Update`.

Conventions of the embedding

* A Go slice is a `Slice`: `Slice.nil` is the nil slice, `Slice.of l` a non-nil
  slice holding `l` (so `Slice.of []` is the empty, non-nil slice).
* A Go `(T, error)` result is an `Except Error T`; a Go `error` result is an
  `Except Error Unit`.
* The collaborators behind the interfaces `Offers`, `Modules`, `Packages` and
  the driver routine `primitive.ObjectIDFromHex` are the fields of `Env`; every
  collaborator call threads a store of type `σ` and is recorded in a call list.
-/

set_option autoImplicit false

namespace Courses

/-! ## Data model -/

/-- The driver's `primitive.ObjectID` (twelve bytes), read as a natural number.
The service only copies identifiers and compares them with `==`. -/
structure ObjectID where
  value : Nat
  deriving DecidableEq, Repr

/-- The zero value of `primitive.ObjectID`. -/
def NilObjectID : ObjectID := ⟨0⟩

/-- A Go slice with its nil / non-nil distinction. -/
inductive Slice (α : Type) where
  | nil
  | of (items : List α)
  deriving DecidableEq, Repr

/-- The elements a `range` loop over the slice visits, in order. -/
def Slice.elems {α : Type} : Slice α → List α
  | .nil => []
  | .of items => items

/-- Go's `len`. -/
def Slice.len {α : Type} (s : Slice α) : Nat := s.elems.length

/-- Go's `s != nil`. -/
def Slice.nonNil {α : Type} : Slice α → Bool
  | .nil => false
  | .of _ => true

/-- The error values of `internal/domain/errors.go`, plus `external` for every
error that is created outside that table (persistence driver, hex parsing). -/
inductive Error where
  | ErrUserNotFound
  | ErrVerificationCodeInvalid
  | ErrOfferNotFound
  | ErrPromoNotFound
  | ErrCourseNotFound
  | ErrUserAlreadyExists
  | ErrModuleIsNotAvailable
  | ErrPromocodeExpired
  | ErrTransactionInvalid
  | ErrUnknownCallbackType
  | external (msg : String)
  deriving DecidableEq, Repr

/-- Modelled from the spec: the declaration of `domain.Price` is not among the
sources. The data model gives a price an amount and a currency, and the spec
speaks of a negative amount, so the amount is a signed integer. -/
structure Price where
  Value : Int
  Currency : String
  deriving DecidableEq, Repr

/-- Modelled from the spec: the declaration of `domain.Offer` is not among the
sources. The fields are the ones `offers.go` and the test read or write
(`ID`, `Name`, `Description`, `Benefits`, `SchoolID`, `PackageIDs`, `Price`). -/
structure Offer where
  ID : ObjectID
  Name : String
  Description : String
  Benefits : Slice String
  SchoolID : ObjectID
  PackageIDs : Slice ObjectID
  Price : Price
  deriving DecidableEq, Repr

/-- Modelled from the spec: the declaration of `domain.Module` is not among the
sources. `offers.go` reads `PackageID`; the data model adds the
content-availability flag (free or gated). -/
structure Module where
  ID : ObjectID
  PackageID : ObjectID
  Free : Bool
  deriving DecidableEq, Repr

/-- Modelled from the spec: the declaration of `domain.Package` is not among
the sources. `offers.go` reads `ID`; the data model says a package belongs to
one course. -/
structure Package where
  ID : ObjectID
  CourseID : ObjectID
  deriving DecidableEq, Repr

/-- The service-level `CreateOfferInput` (offers.go, lines 21-27). -/
structure CreateOfferInput where
  Name : String
  Description : String
  Benefits : Slice String
  SchoolID : ObjectID
  Price : Price
  deriving DecidableEq, Repr

/-- The service-level `UpdateOfferInput` (offers.go, lines 29-37): identifiers
are hex strings, `Price` is a pointer (here an `Option`). -/
structure UpdateOfferInput where
  ID : String
  SchoolID : String
  Name : String
  Description : String
  Benefits : Slice String
  Price : Option Price
  Packages : Slice String
  deriving DecidableEq, Repr

namespace repository

/-- Modelled from the spec: the declaration of `repository.UpdateOfferInput` is
not among the sources. The fields and their types are the ones the composite
literal and the assignment in `OffersService.Update` give it. -/
structure UpdateOfferInput where
  ID : ObjectID
  SchoolID : ObjectID
  Name : String
  Description : String
  Price : Option Price
  Benefits : Slice String
  Packages : Slice ObjectID
  deriving DecidableEq, Repr

end repository

/-! ## Collaborators -/

/-- One call made by the service to a collaborator, with its arguments. -/
inductive Call where
  | repoCreate (offer : Offer)
  | repoUpdate (inp : repository.UpdateOfferInput)
  | repoGetBySchool (schoolId : ObjectID)
  | repoGetByPackages (packageIds : Slice ObjectID)
  | modulesGetById (moduleId : ObjectID)
  | packagesGetByCourse (courseId : ObjectID)
  deriving DecidableEq, Repr

/-- The collaborators of `OffersService`: the methods of the `Offers`
repository that the service calls, the `Modules` and `Packages` services, and
the driver's `primitive.ObjectIDFromHex`. Each method reads and may change a
store of type `σ`. -/
structure Env (σ : Type) where
  repoCreate : σ → Offer → Except Error ObjectID × σ
  repoUpdate : σ → repository.UpdateOfferInput → Except Error Unit × σ
  repoGetBySchool : σ → ObjectID → Except Error (Slice Offer) × σ
  repoGetByPackages : σ → Slice ObjectID → Except Error (Slice Offer) × σ
  modulesGetById : σ → ObjectID → Except Error Module × σ
  packagesGetByCourse : σ → ObjectID → Except Error (Slice Package) × σ
  ObjectIDFromHex : String → Except Error ObjectID

/-- What running a service method gives: the returned value or error, the
store afterwards, and the collaborator calls made, in order. -/
structure Outcome (σ α : Type) where
  result : Except Error α
  state : σ
  calls : List Call

/-! ## The service (offers.go) -/

/-- The loop of `inArray` (offers.go, lines 155-161): scan from the left and
return `true` at the first element equal to `searchedItem`. -/
def inArrayLoop : List ObjectID → ObjectID → Bool
  | [], _ => false
  | x :: rest, searchedItem => if x = searchedItem then true else inArrayLoop rest searchedItem

/-- The function `inArray` (offers.go, lines 154-162). -/
def inArray (array : Slice ObjectID) (searchedItem : ObjectID) : Bool :=
  inArrayLoop array.elems searchedItem

/-- The loop of `stringArrayToObjectId` (offers.go, lines 169-174): element `i`
of `ids` is overwritten with the parsed identifier; the first parse error ends
the loop. -/
def stringArrayToObjectIdLoop (fromHex : String → Except Error ObjectID) :
    List String → Nat → List ObjectID → Except Error (List ObjectID)
  | [], _, ids => .ok ids
  | id :: rest, i, ids =>
    match fromHex id with
    | .error err => .error err
    | .ok oid => stringArrayToObjectIdLoop fromHex rest (i + 1) (ids.set i oid)

/-- The function `stringArrayToObjectId` (offers.go, lines 164-177): `ids` is
made with the length of the input (zero-filled, non-nil). -/
def stringArrayToObjectId (fromHex : String → Except Error ObjectID)
    (stringIds : Slice String) : Except Error (Slice ObjectID) :=
  match stringArrayToObjectIdLoop fromHex stringIds.elems 0
      (List.replicate stringIds.len NilObjectID) with
  | .error err => .error err
  | .ok ids => .ok (Slice.of ids)

namespace OffersService

variable {σ : Type}

/-- The loop of `GetByPackage` (offers.go, lines 70-74): append every offer
whose `PackageIDs` holds `packageId` to `result`. -/
def collectByPackage (offers : List Offer) (packageId : ObjectID) : List Offer :=
  offers.foldl
    (fun result offer => if inArray offer.PackageIDs packageId then result ++ [offer] else result)
    []

/-- The method `OffersService.GetByPackage` (offers.go, lines 62-77). -/
def GetByPackage (env : Env σ) (s : σ) (schoolId packageId : ObjectID) :
    Outcome σ (Slice Offer) :=
  match env.repoGetBySchool s schoolId with
  | (.error err, s1) => ⟨.error err, s1, [Call.repoGetBySchool schoolId]⟩
  | (.ok offers, s1) =>
    ⟨.ok (Slice.of (collectByPackage offers.elems packageId)), s1,
      [Call.repoGetBySchool schoolId]⟩

/-- The method `OffersService.GetByModule` (offers.go, lines 79-86). -/
def GetByModule (env : Env σ) (s : σ) (schoolId moduleId : ObjectID) :
    Outcome σ (Slice Offer) :=
  match env.modulesGetById s moduleId with
  | (.error err, s1) => ⟨.error err, s1, [Call.modulesGetById moduleId]⟩
  | (.ok module, s1) =>
    let r := GetByPackage env s1 schoolId module.PackageID
    ⟨r.result, r.state, Call.modulesGetById moduleId :: r.calls⟩

/-- The loop of `GetByCourse` (offers.go, lines 99-101): element `i` of
`packageIds` is overwritten with the ID of the `i`-th package. -/
def packageIdsLoop : List Package → Nat → List ObjectID → List ObjectID
  | [], _, packageIds => packageIds
  | pkg :: rest, i, packageIds => packageIdsLoop rest (i + 1) (packageIds.set i pkg.ID)

/-- The method `OffersService.GetByCourse` (offers.go, lines 88-104). -/
def GetByCourse (env : Env σ) (s : σ) (courseId : ObjectID) : Outcome σ (Slice Offer) :=
  match env.packagesGetByCourse s courseId with
  | (.error err, s1) => ⟨.error err, s1, [Call.packagesGetByCourse courseId]⟩
  | (.ok packages, s1) =>
    if packages.len = 0 then
      ⟨.ok (Slice.of []), s1, [Call.packagesGetByCourse courseId]⟩
    else
      let packageIds :=
        packageIdsLoop packages.elems 0 (List.replicate packages.len NilObjectID)
      let r := env.repoGetByPackages s1 (Slice.of packageIds)
      ⟨r.1, r.2,
        [Call.packagesGetByCourse courseId, Call.repoGetByPackages (Slice.of packageIds)]⟩

/-- The offer `OffersService.Create` builds from its input (offers.go, lines
107-113); the fields the literal leaves out keep their zero value. -/
def offerOfInput (inp : CreateOfferInput) : Offer :=
  { ID := NilObjectID
    Name := inp.Name
    Description := inp.Description
    Benefits := inp.Benefits
    SchoolID := inp.SchoolID
    PackageIDs := Slice.nil
    Price := inp.Price }

/-- The method `OffersService.Create` (offers.go, lines 106-114). -/
def Create (env : Env σ) (s : σ) (inp : CreateOfferInput) : Outcome σ ObjectID :=
  let r := env.repoCreate s (offerOfInput inp)
  ⟨r.1, r.2, [Call.repoCreate (offerOfInput inp)]⟩

/-- The method `OffersService.Update` (offers.go, lines 120-148). -/
def Update (env : Env σ) (s : σ) (inp : UpdateOfferInput) : Outcome σ Unit :=
  match env.ObjectIDFromHex inp.ID with
  | .error err => ⟨.error err, s, []⟩
  | .ok id =>
    match env.ObjectIDFromHex inp.SchoolID with
    | .error err => ⟨.error err, s, []⟩
    | .ok schoolId =>
      let updateInput : repository.UpdateOfferInput :=
        { ID := id
          SchoolID := schoolId
          Name := inp.Name
          Description := inp.Description
          Price := inp.Price
          Benefits := inp.Benefits
          Packages := Slice.nil }
      if inp.Packages.nonNil then
        match stringArrayToObjectId env.ObjectIDFromHex inp.Packages with
        | .error err => ⟨.error err, s, []⟩
        | .ok packages =>
          let updateInput := { updateInput with Packages := packages }
          let r := env.repoUpdate s updateInput
          ⟨r.1, r.2, [Call.repoUpdate updateInput]⟩
      else
        let r := env.repoUpdate s updateInput
        ⟨r.1, r.2, [Call.repoUpdate updateInput]⟩

end OffersService

/-! ## An in-memory double of the collaborators

Used to evaluate the service at concrete inputs. -/

/-- The value of one hexadecimal digit. -/
def hexDigitValue (c : Char) : Option Nat :=
  if '0' ≤ c ∧ c ≤ '9' then some (c.toNat - '0'.toNat)
  else if 'a' ≤ c ∧ c ≤ 'f' then some (c.toNat - 'a'.toNat + 10)
  else if 'A' ≤ c ∧ c ≤ 'F' then some (c.toNat - 'A'.toNat + 10)
  else none

/-- The number a string of hexadecimal digits denotes, most significant digit
first; `none` at the first character that is not a digit. -/
def hexValue : List Char → Nat → Option Nat
  | [], acc => some acc
  | c :: rest, acc =>
    match hexDigitValue c with
    | none => none
    | some d => hexValue rest (16 * acc + d)

/-- A stand-in for the driver routine `primitive.ObjectIDFromHex`, which is
outside the repository: a string of exactly twenty-four hexadecimal digits
parses to the identifier it denotes, every other string is an error. -/
def hexObjectID (str : String) : Except Error ObjectID :=
  if str.length ≠ 24 then
    .error (Error.external "the provided hex string is not a valid ObjectID")
  else
    match hexValue str.toList 0 with
    | none => .error (Error.external "encoding/hex: invalid byte")
    | some v => .ok ⟨v⟩

namespace repository

/-- Modelled from the spec: the repository method `GetByPackages` is
implemented outside the sources. Over the stored offers it returns "the union
of offers referencing any of those packages (no duplicate offers in the result
even if an offer grants multiple matching packages)": the offers referencing
each package in turn, put together, with repeated offers removed. -/
def GetByPackages (stored : List Offer) (packageIds : Slice ObjectID) :
    Except Error (Slice Offer) :=
  .ok (Slice.of
    (List.dedup
      (packageIds.elems.flatMap
        (fun p => stored.filter (fun offer => inArray offer.PackageIDs p)))))

/-- Modelled from the spec: the repository method `Update` is implemented
outside the sources. On the offer with the given ID and school "unspecified
fields retain prior values" and a supplied `Packages` list "replaces the full
package set"; every other offer is left as it is. -/
def applyUpdate (inp : UpdateOfferInput) (offer : Offer) : Offer :=
  if offer.ID = inp.ID ∧ offer.SchoolID = inp.SchoolID then
    { ID := offer.ID
      Name := if inp.Name = "" then offer.Name else inp.Name
      Description := if inp.Description = "" then offer.Description else inp.Description
      Benefits := if inp.Benefits.nonNil then inp.Benefits else offer.Benefits
      SchoolID := offer.SchoolID
      PackageIDs := if inp.Packages.nonNil then inp.Packages else offer.PackageIDs
      Price := inp.Price.getD offer.Price }
  else offer

end repository

/-- The store of the in-memory double. -/
structure Store where
  offers : List Offer
  modules : List Module
  packages : List Package
  deriving DecidableEq, Repr

/-- The error the double reports for a document that is not stored. -/
def errNoDocuments : Error := Error.external "mongo: no documents in result"

/-- The in-memory double: lookups read the store, `Create` gives the new offer
the identifier that follows the number of stored offers, `Update` rewrites the
matching offer. -/
def memEnv : Env Store where
  repoCreate := fun st offer =>
    let id : ObjectID := ⟨1000 + st.offers.length⟩
    (.ok id, { st with offers := st.offers ++ [{ offer with ID := id }] })
  repoUpdate := fun st inp =>
    (.ok (), { st with offers := st.offers.map (repository.applyUpdate inp) })
  repoGetBySchool := fun st schoolId =>
    (.ok (Slice.of (st.offers.filter (fun offer => offer.SchoolID = schoolId))), st)
  repoGetByPackages := fun st packageIds =>
    (repository.GetByPackages st.offers packageIds, st)
  modulesGetById := fun st moduleId =>
    match st.modules.find? (fun m => m.ID = moduleId) with
    | some m => (.ok m, st)
    | none => (.error errNoDocuments, st)
  packagesGetByCourse := fun st courseId =>
    (.ok (Slice.of (st.packages.filter (fun pkg => pkg.CourseID = courseId))), st)
  ObjectIDFromHex := hexObjectID

/-- The double with a module lookup that always fails with the given error. -/
def failingModulesEnv (err : Error) : Env Store :=
  { memEnv with modulesGetById := fun st _ => (.error err, st) }

/-- The school of the sample store. -/
def school1 : ObjectID := ⟨1⟩

/-- A sample offer granting package 11 (listed twice) and package 12. -/
def offerA : Offer :=
  { ID := ⟨101⟩, Name := "Full course", Description := "All modules",
    Benefits := Slice.of ["Lifetime access"], SchoolID := school1,
    PackageIDs := Slice.of [⟨11⟩, ⟨12⟩, ⟨11⟩], Price := ⟨4900, "USD"⟩ }

/-- A sample offer granting package 12 only. -/
def offerB : Offer :=
  { ID := ⟨102⟩, Name := "Advanced part", Description := "",
    Benefits := Slice.nil, SchoolID := school1,
    PackageIDs := Slice.of [⟨12⟩], Price := ⟨1900, "USD"⟩ }

/-- A sample offer with no package at all. -/
def offerC : Offer :=
  { ID := ⟨103⟩, Name := "Empty", Description := "",
    Benefits := Slice.nil, SchoolID := school1,
    PackageIDs := Slice.nil, Price := ⟨0, "USD"⟩ }

/-- A sample store: three offers of one school; course 21 has the packages 11
and 12, course 22 has none; modules 31 (free) and 32 (gated) are of package 11. -/
def store1 : Store :=
  { offers := [offerA, offerB, offerC]
    modules := [⟨⟨31⟩, ⟨11⟩, true⟩, ⟨⟨32⟩, ⟨11⟩, false⟩, ⟨⟨33⟩, ⟨12⟩, false⟩]
    packages := [⟨⟨11⟩, ⟨21⟩⟩, ⟨⟨12⟩, ⟨21⟩⟩] }

/-- A create input with an empty currency and a negative amount. -/
def badPriceInput : CreateOfferInput :=
  { Name := "Broken", Description := "", Benefits := Slice.nil,
    SchoolID := school1, Price := ⟨-5, ""⟩ }


/-- An update that names offer A of school 1, changes the description only and
supplies no `Packages` list. -/
def updateNoPackages : UpdateOfferInput :=
  { ID := "000000000000000000000065", SchoolID := "000000000000000000000001",
    Name := "", Description := "New text", Benefits := Slice.nil, Price := none,
    Packages := Slice.nil }

/-- The same update with an empty, non-nil `Packages` list. -/
def updateEmptyPackages : UpdateOfferInput :=
  { updateNoPackages with Packages := Slice.of [] }

/-- The same update with the packages 11 and 12 as hex strings. -/
def updateTwoPackages : UpdateOfferInput :=
  { updateNoPackages with
    Packages := Slice.of ["00000000000000000000000b", "00000000000000000000000c"] }

/-- The same update with a second package string that is not hexadecimal. -/
def updateBadPackage : UpdateOfferInput :=
  { updateNoPackages with Packages := Slice.of ["00000000000000000000000b", "not hex"] }

/-! ## Lemmas about the loops -/

theorem inArrayLoop_eq_decide_mem (l : List ObjectID) (x : ObjectID) :
    inArrayLoop l x = decide (x ∈ l) := by
  induction l with
  | nil => simp [inArrayLoop]
  | cons y rest ih =>
    by_cases h : y = x
    · simp [inArrayLoop, h]
    · have h2 : ¬ x = y := fun e => h e.symm
      simp [inArrayLoop, h, h2, ih]

theorem inArray_eq_decide_mem (array : Slice ObjectID) (x : ObjectID) :
    inArray array x = decide (x ∈ array.elems) :=
  inArrayLoop_eq_decide_mem array.elems x

theorem inArray_eq_true_iff (array : Slice ObjectID) (x : ObjectID) :
    inArray array x = true ↔ x ∈ array.elems := by
  simp [inArray_eq_decide_mem]

namespace OffersService

theorem foldl_collect (packageId : ObjectID) (offers acc : List Offer) :
    offers.foldl
        (fun result offer =>
          if inArray offer.PackageIDs packageId then result ++ [offer] else result)
        acc
      = acc ++ offers.filter (fun offer => decide (packageId ∈ offer.PackageIDs.elems)) := by
  induction offers generalizing acc with
  | nil => simp
  | cons o rest ih =>
    rw [List.foldl_cons, ih]
    by_cases h : packageId ∈ o.PackageIDs.elems
    · simp [inArray_eq_decide_mem, h]
    · simp [inArray_eq_decide_mem, h]

theorem collectByPackage_eq_filter (offers : List Offer) (packageId : ObjectID) :
    collectByPackage offers packageId
      = offers.filter (fun offer => decide (packageId ∈ offer.PackageIDs.elems)) := by
  simp [collectByPackage, foldl_collect]

theorem GetByPackage_of_ok {σ : Type} (env : Env σ) (s s1 : σ) (schoolId packageId : ObjectID)
    (offers : Slice Offer) (h : env.repoGetBySchool s schoolId = (.ok offers, s1)) :
    GetByPackage env s schoolId packageId
      = ⟨.ok (Slice.of
            (offers.elems.filter (fun offer => decide (packageId ∈ offer.PackageIDs.elems)))),
          s1, [Call.repoGetBySchool schoolId]⟩ := by
  simp [GetByPackage, h, collectByPackage_eq_filter]

theorem GetByModule_of_ok {σ : Type} (env : Env σ) (s s1 : σ) (schoolId moduleId : ObjectID)
    (m : Module) (h : env.modulesGetById s moduleId = (.ok m, s1)) :
    GetByModule env s schoolId moduleId
      = ⟨(GetByPackage env s1 schoolId m.PackageID).result,
          (GetByPackage env s1 schoolId m.PackageID).state,
          Call.modulesGetById moduleId :: (GetByPackage env s1 schoolId m.PackageID).calls⟩ := by
  simp [GetByModule, h]

end OffersService

/-! ## The lookup by package -/

namespace OffersService

/-- C1: whenever the repository returns the offer list `offers` for the school,
`GetByPackage` succeeds and returns exactly the offers of that list whose
`PackageIDs` contain the package, in the order of the list; the only
collaborator call is the one `GetBySchool` lookup. -/
theorem GetByPackage_returns_filtered {σ : Type} (env : Env σ) (s s1 : σ)
    (schoolId packageId : ObjectID) (offers : Slice Offer)
    (h : env.repoGetBySchool s schoolId = (.ok offers, s1)) :
    (GetByPackage env s schoolId packageId).result
        = .ok (Slice.of
            (offers.elems.filter (fun offer => decide (packageId ∈ offer.PackageIDs.elems))))
      ∧ (GetByPackage env s schoolId packageId).calls = [Call.repoGetBySchool schoolId] := by
  rw [GetByPackage_of_ok env s s1 schoolId packageId offers h]
  exact ⟨rfl, rfl⟩

/-- C1 at the sample store: of the three offers of the school, the lookup for
package 12 returns the two offers granting it, in stored order. -/
theorem GetByPackage_returns_filtered_witness :
    memEnv.repoGetBySchool store1 school1 = (.ok (Slice.of [offerA, offerB, offerC]), store1)
      ∧ (GetByPackage memEnv store1 school1 ⟨12⟩).result = .ok (Slice.of [offerA, offerB])
      ∧ (GetByPackage memEnv store1 school1 ⟨12⟩).calls = [Call.repoGetBySchool school1] :=
  ⟨rfl, GetByPackage_returns_filtered memEnv store1 store1 school1 ⟨12⟩
    (Slice.of [offerA, offerB, offerC]) rfl⟩

/-- C2: when the offers the repository returns for the school are pairwise
distinct, the list `GetByPackage` returns has no duplicates, holds every offer
granting the package exactly once (however often the package id is listed in
that offer), is the one-element list of the granting offer when exactly one
offer grants the package, and is also what `GetByModule` returns for a module
of that package. -/
theorem GetByPackage_no_duplicates {σ : Type} (env : Env σ) (s s1 : σ)
    (schoolId packageId : ObjectID) (offers : Slice Offer)
    (h : env.repoGetBySchool s schoolId = (.ok offers, s1))
    (hnodup : offers.elems.Nodup) :
    ∃ result : List Offer,
      (GetByPackage env s schoolId packageId).result = .ok (Slice.of result)
        ∧ result.Nodup
        ∧ (∀ offer ∈ offers.elems, packageId ∈ offer.PackageIDs.elems →
            result.count offer = 1)
        ∧ (∀ offer ∈ offers.elems, packageId ∈ offer.PackageIDs.elems →
            (∀ other ∈ offers.elems, packageId ∈ other.PackageIDs.elems → other = offer) →
            result = [offer])
        ∧ (∀ (s0 : σ) (moduleId : ObjectID) (m : Module),
            env.modulesGetById s0 moduleId = (.ok m, s) → m.PackageID = packageId →
            (GetByModule env s0 schoolId moduleId).result = .ok (Slice.of result)) := by
  refine ⟨offers.elems.filter (fun offer => decide (packageId ∈ offer.PackageIDs.elems)),
    ?_, ?_, ?_, ?_, ?_⟩
  · rw [GetByPackage_of_ok env s s1 schoolId packageId offers h]
  · exact hnodup.filter _
  · intro offer hmem hp
    exact List.count_eq_one_of_mem (hnodup.filter _) (by simp [List.mem_filter, hmem, hp])
  · intro offer hmem hp huniq
    have hfilter : offers.elems.filter (fun o => decide (packageId ∈ o.PackageIDs.elems))
        = offers.elems.filter (fun o => decide (o = offer)) := by
      apply List.filter_congr
      intro o ho
      by_cases hpo : packageId ∈ o.PackageIDs.elems
      · simp [hpo, huniq o ho hpo, hp]
      · have hne : ¬ o = offer := fun e => hpo (e ▸ hp)
        simp [hpo, hne]
    rw [hfilter]
    have hcount : (offers.elems.filter (fun o => decide (o = offer)))
        = List.replicate (offers.elems.count offer) offer := by
      induction offers.elems with
      | nil => simp
      | cons o rest ih =>
        by_cases ho : o = offer
        · subst ho
          simp [List.filter_cons, ih, List.replicate_succ]
        · simp [List.filter_cons, ho, List.count_cons, ih]
    rw [hcount, List.count_eq_one_of_mem hnodup hmem]
    rfl
  · intro s0 moduleId m hm hpkg
    rw [GetByModule_of_ok env s0 s schoolId moduleId m hm, hpkg,
      GetByPackage_of_ok env s s1 schoolId packageId offers h]

/-- C2 at the sample store: offer A lists package 11 twice and is the only
offer granting it; the lookup returns offer A once, for the package and for
the free module 31 of that package. -/
theorem GetByPackage_no_duplicates_witness :
    memEnv.repoGetBySchool store1 school1 = (.ok (Slice.of [offerA, offerB, offerC]), store1)
      ∧ (Slice.of [offerA, offerB, offerC]).elems.Nodup
      ∧ ∃ result : List Offer,
        (GetByPackage memEnv store1 school1 ⟨11⟩).result = .ok (Slice.of result)
          ∧ result.Nodup
          ∧ (∀ offer ∈ (Slice.of [offerA, offerB, offerC]).elems,
              (⟨11⟩ : ObjectID) ∈ offer.PackageIDs.elems → result.count offer = 1)
          ∧ (∀ offer ∈ (Slice.of [offerA, offerB, offerC]).elems,
              (⟨11⟩ : ObjectID) ∈ offer.PackageIDs.elems →
              (∀ other ∈ (Slice.of [offerA, offerB, offerC]).elems,
                (⟨11⟩ : ObjectID) ∈ other.PackageIDs.elems → other = offer) →
              result = [offer])
          ∧ (∀ (s0 : Store) (moduleId : ObjectID) (m : Module),
              memEnv.modulesGetById s0 moduleId = (.ok m, store1) → m.PackageID = ⟨11⟩ →
              (GetByModule memEnv s0 school1 moduleId).result = .ok (Slice.of result)) :=
  ⟨rfl, by decide,
    GetByPackage_no_duplicates memEnv store1 store1 school1 ⟨11⟩
      (Slice.of [offerA, offerB, offerC]) rfl (by decide)⟩

end OffersService


/-! ## The lookups by course and by module -/

namespace OffersService

theorem packageIdsLoop_eq_map (z : ObjectID) (rest : List Package) (done : List ObjectID) :
    packageIdsLoop rest done.length (done ++ List.replicate rest.length z)
      = done ++ rest.map (fun pkg => pkg.ID) := by
  induction rest generalizing done with
  | nil => simp [packageIdsLoop]
  | cons pkg rest ih =>
    have hset : (done ++ List.replicate (rest.length + 1) z).set done.length pkg.ID
        = (done ++ [pkg.ID]) ++ List.replicate rest.length z := by
      simp [List.set_append, List.replicate_succ]
    have hlen : done.length + 1 = (done ++ [pkg.ID]).length := by simp
    simp only [packageIdsLoop, List.length_cons]
    rw [hset, hlen, ih (done ++ [pkg.ID])]
    simp

theorem packageIds_eq_map (packages : List Package) :
    packageIdsLoop packages 0 (List.replicate packages.length NilObjectID)
      = packages.map (fun pkg => pkg.ID) := by
  simpa using packageIdsLoop_eq_map NilObjectID packages []

/-- C3: for a course with at least one package, `GetByCourse` hands the
repository a package-id list of the length of the course's package list whose
`i`-th element is the ID of the `i`-th package; with the repository lookup
`GetByPackages` as the spec describes it over the stored offers, the result
holds exactly the stored offers that reference one of the course's packages,
and no offer twice. -/
theorem GetByCourse_returns_union {σ : Type} (env : Env σ) (s s1 : σ) (courseId : ObjectID)
    (packages : Slice Package) (stored : List Offer)
    (hpk : env.packagesGetByCourse s courseId = (.ok packages, s1))
    (hlen : 0 < packages.len)
    (hrepo : ∀ ids, env.repoGetByPackages s1 ids = (repository.GetByPackages stored ids, s1)) :
    ∃ (ids : List ObjectID) (result : List Offer),
      (GetByCourse env s courseId).calls
          = [Call.packagesGetByCourse courseId, Call.repoGetByPackages (Slice.of ids)]
        ∧ ids.length = packages.elems.length
        ∧ (∀ (i : Nat) (h1 : i < ids.length) (h2 : i < packages.elems.length),
            ids[i] = (packages.elems[i]).ID)
        ∧ (GetByCourse env s courseId).result = .ok (Slice.of result)
        ∧ result.Nodup
        ∧ (∀ offer : Offer, offer ∈ result ↔
            offer ∈ stored ∧ ∃ pkg ∈ packages.elems, pkg.ID ∈ offer.PackageIDs.elems) := by
  have hne : ¬ packages.elems = [] := fun e => by simp [Slice.len, e] at hlen
  have hrun : GetByCourse env s courseId
      = ⟨(env.repoGetByPackages s1 (Slice.of (packages.elems.map (fun pkg => pkg.ID)))).1,
          (env.repoGetByPackages s1 (Slice.of (packages.elems.map (fun pkg => pkg.ID)))).2,
          [Call.packagesGetByCourse courseId,
            Call.repoGetByPackages (Slice.of (packages.elems.map (fun pkg => pkg.ID)))]⟩ := by
    simp [GetByCourse, hpk, hne, Slice.len, packageIds_eq_map]
  rw [hrun, hrepo]
  refine ⟨packages.elems.map (fun pkg => pkg.ID),
    List.dedup ((packages.elems.map (fun pkg => pkg.ID)).flatMap
      (fun p => stored.filter (fun offer => inArray offer.PackageIDs p))), ?_, ?_, ?_, ?_, ?_, ?_⟩
  · rfl
  · simp
  · intro i h1 h2
    simp
  · rfl
  · exact List.nodup_dedup _
  · intro offer
    simp only [List.mem_dedup, List.mem_flatMap, List.mem_map, List.mem_filter,
      inArray_eq_true_iff]
    constructor
    · rintro ⟨p, ⟨pkg, hpkg, rfl⟩, hmem, hin⟩
      exact ⟨hmem, pkg, hpkg, hin⟩
    · rintro ⟨hmem, pkg, hpkg, hin⟩
      exact ⟨pkg.ID, ⟨pkg, hpkg, rfl⟩, hmem, hin⟩

/-- C3 at the sample store: course 21 has the packages 11 and 12; offer A
grants both and is returned once, next to offer B. -/
theorem GetByCourse_returns_union_witness :
    memEnv.packagesGetByCourse store1 ⟨21⟩ = (.ok (Slice.of [⟨⟨11⟩, ⟨21⟩⟩, ⟨⟨12⟩, ⟨21⟩⟩]), store1)
      ∧ 0 < (Slice.of ([⟨⟨11⟩, ⟨21⟩⟩, ⟨⟨12⟩, ⟨21⟩⟩] : List Package)).len
      ∧ (GetByCourse memEnv store1 ⟨21⟩).result = .ok (Slice.of [offerA, offerB])
      ∧ ∃ (ids : List ObjectID) (result : List Offer),
        (GetByCourse memEnv store1 ⟨21⟩).calls
            = [Call.packagesGetByCourse ⟨21⟩, Call.repoGetByPackages (Slice.of ids)]
          ∧ ids.length = (Slice.of ([⟨⟨11⟩, ⟨21⟩⟩, ⟨⟨12⟩, ⟨21⟩⟩] : List Package)).elems.length
          ∧ (∀ (i : Nat) (h1 : i < ids.length)
              (h2 : i < (Slice.of ([⟨⟨11⟩, ⟨21⟩⟩, ⟨⟨12⟩, ⟨21⟩⟩] : List Package)).elems.length),
              ids[i] = ((Slice.of ([⟨⟨11⟩, ⟨21⟩⟩, ⟨⟨12⟩, ⟨21⟩⟩] : List Package)).elems[i]).ID)
          ∧ (GetByCourse memEnv store1 ⟨21⟩).result = .ok (Slice.of result)
          ∧ result.Nodup
          ∧ (∀ offer : Offer, offer ∈ result ↔
              offer ∈ store1.offers
                ∧ ∃ pkg ∈ (Slice.of ([⟨⟨11⟩, ⟨21⟩⟩, ⟨⟨12⟩, ⟨21⟩⟩] : List Package)).elems,
                  pkg.ID ∈ offer.PackageIDs.elems) :=
  ⟨rfl, by decide, rfl,
    GetByCourse_returns_union memEnv store1 store1 ⟨21⟩ (Slice.of [⟨⟨11⟩, ⟨21⟩⟩, ⟨⟨12⟩, ⟨21⟩⟩])
      store1.offers rfl (by decide) (fun _ => rfl)⟩

/-- C4: when the package lookup succeeds with zero packages (a nil or an empty
list), `GetByCourse` returns the empty non-nil offer list and no error, the
store is the one the package lookup left, and the package lookup is the only
collaborator call: the repository method `GetByPackages` is not called. -/
theorem GetByCourse_no_packages {σ : Type} (env : Env σ) (s s1 : σ) (courseId : ObjectID)
    (packages : Slice Package)
    (hpk : env.packagesGetByCourse s courseId = (.ok packages, s1))
    (hzero : packages.len = 0) :
    (GetByCourse env s courseId).result = .ok (Slice.of [])
      ∧ (GetByCourse env s courseId).state = s1
      ∧ (GetByCourse env s courseId).calls = [Call.packagesGetByCourse courseId]
      ∧ (∀ ids : Slice ObjectID,
          Call.repoGetByPackages ids ∉ (GetByCourse env s courseId).calls) := by
  have hrun : GetByCourse env s courseId
      = ⟨.ok (Slice.of []), s1, [Call.packagesGetByCourse courseId]⟩ := by
    simp [GetByCourse, hpk, hzero]
  rw [hrun]
  simp

/-- C4 at the sample store: course 22 has no package. -/
theorem GetByCourse_no_packages_witness :
    memEnv.packagesGetByCourse store1 ⟨22⟩ = (.ok (Slice.of []), store1)
      ∧ (Slice.of ([] : List Package)).len = 0
      ∧ (GetByCourse memEnv store1 ⟨22⟩).result = .ok (Slice.of [])
      ∧ (GetByCourse memEnv store1 ⟨22⟩).state = store1
      ∧ (GetByCourse memEnv store1 ⟨22⟩).calls = [Call.packagesGetByCourse ⟨22⟩]
      ∧ (∀ ids : Slice ObjectID,
          Call.repoGetByPackages ids ∉ (GetByCourse memEnv store1 ⟨22⟩).calls) :=
  ⟨rfl, rfl, GetByCourse_no_packages memEnv store1 store1 ⟨22⟩ (Slice.of []) rfl rfl⟩

/-- C5: for a module the lookup finds, `GetByModule` returns what `GetByPackage`
returns for the module's `PackageID` in the store the lookup left (same result,
same final store, the same calls after the module lookup); a second module
found with the same `PackageID` gives the same result. -/
theorem GetByModule_delegates {σ : Type} (env : Env σ) (s s1 : σ)
    (schoolId moduleId : ObjectID) (m : Module)
    (hm : env.modulesGetById s moduleId = (.ok m, s1)) :
    (GetByModule env s schoolId moduleId).result
        = (GetByPackage env s1 schoolId m.PackageID).result
      ∧ (GetByModule env s schoolId moduleId).state
        = (GetByPackage env s1 schoolId m.PackageID).state
      ∧ (GetByModule env s schoolId moduleId).calls
        = Call.modulesGetById moduleId :: (GetByPackage env s1 schoolId m.PackageID).calls
      ∧ (∀ (otherId : ObjectID) (other : Module),
          env.modulesGetById s otherId = (.ok other, s1) → other.PackageID = m.PackageID →
          (GetByModule env s schoolId otherId).result
            = (GetByModule env s schoolId moduleId).result) := by
  rw [GetByModule_of_ok env s s1 schoolId moduleId m hm]
  refine ⟨rfl, rfl, rfl, ?_⟩
  intro otherId other hother hpkg
  rw [GetByModule_of_ok env s s1 schoolId otherId other hother, hpkg]

/-- C5 at the sample store: module 31 is free, module 32 is gated, both are of
package 11; the offers for the free module are those of package 11, and the
gated module gets the same ones. -/
theorem GetByModule_delegates_witness :
    memEnv.modulesGetById store1 ⟨31⟩ = (.ok ⟨⟨31⟩, ⟨11⟩, true⟩, store1)
      ∧ memEnv.modulesGetById store1 ⟨32⟩ = (.ok ⟨⟨32⟩, ⟨11⟩, false⟩, store1)
      ∧ (GetByModule memEnv store1 school1 ⟨31⟩).result = .ok (Slice.of [offerA])
      ∧ (GetByModule memEnv store1 school1 ⟨32⟩).result
          = (GetByModule memEnv store1 school1 ⟨31⟩).result
      ∧ (GetByModule memEnv store1 school1 ⟨31⟩).result
          = (GetByPackage memEnv store1 school1 ⟨11⟩).result :=
  ⟨rfl, rfl, rfl,
    (GetByModule_delegates memEnv store1 store1 school1 ⟨31⟩ ⟨⟨31⟩, ⟨11⟩, true⟩ rfl).2.2.2
      ⟨32⟩ ⟨⟨32⟩, ⟨11⟩, false⟩ rfl rfl,
    (GetByModule_delegates memEnv store1 store1 school1 ⟨31⟩ ⟨⟨31⟩, ⟨11⟩, true⟩ rfl).1⟩

/-- C6, as the code has it: when the module lookup fails with an error,
`GetByModule` returns that very error and no offer list, the store is the one
the lookup left, and the module lookup is the only collaborator call: the
offers of the school are not read. -/
theorem GetByModule_propagates_lookup_error {σ : Type} (env : Env σ) (s s1 : σ)
    (schoolId moduleId : ObjectID) (err : Error)
    (hm : env.modulesGetById s moduleId = (.error err, s1)) :
    (GetByModule env s schoolId moduleId).result = .error err
      ∧ (GetByModule env s schoolId moduleId).state = s1
      ∧ (GetByModule env s schoolId moduleId).calls = [Call.modulesGetById moduleId]
      ∧ (∀ school : ObjectID,
          Call.repoGetBySchool school ∉ (GetByModule env s schoolId moduleId).calls) := by
  have hrun : GetByModule env s schoolId moduleId
      = ⟨.error err, s1, [Call.modulesGetById moduleId]⟩ := by
    simp [GetByModule, hm]
  rw [hrun]
  simp

/-- C6 at the sample store: module 99 is not stored, the lookup of the double
fails with its own error, and that error is what `GetByModule` returns. -/
theorem GetByModule_propagates_lookup_error_witness :
    memEnv.modulesGetById store1 ⟨99⟩ = (.error errNoDocuments, store1)
      ∧ (GetByModule memEnv store1 school1 ⟨99⟩).result = .error errNoDocuments
      ∧ (GetByModule memEnv store1 school1 ⟨99⟩).state = store1
      ∧ (GetByModule memEnv store1 school1 ⟨99⟩).calls = [Call.modulesGetById ⟨99⟩]
      ∧ (∀ school : ObjectID,
          Call.repoGetBySchool school ∉ (GetByModule memEnv store1 school1 ⟨99⟩).calls) :=
  ⟨rfl, GetByModule_propagates_lookup_error memEnv store1 store1 school1 ⟨99⟩
    errNoDocuments rfl⟩

/-- C6 as stated fails: the error of a failed module lookup is passed on as it
is, so two lookups failing with different errors make `GetByModule` return
different errors, and there is no single error (no `ModuleNotFound`) that it
returns for every module whose lookup fails. -/
theorem GetByModule_error_is_not_fixed :
    (GetByModule memEnv store1 school1 ⟨99⟩).result = .error errNoDocuments
      ∧ (GetByModule (failingModulesEnv Error.ErrModuleIsNotAvailable) store1 school1 ⟨99⟩).result
          = .error Error.ErrModuleIsNotAvailable
      ∧ ¬ ∃ notFound : Error,
          ∀ (env : Env Store) (s s1 : Store) (schoolId moduleId : ObjectID) (err : Error),
            env.modulesGetById s moduleId = (.error err, s1) →
            (GetByModule env s schoolId moduleId).result = .error notFound := by
  refine ⟨rfl, rfl, ?_⟩
  rintro ⟨notFound, hall⟩
  have h1 := hall memEnv store1 store1 school1 ⟨99⟩ errNoDocuments rfl
  have h2 := hall (failingModulesEnv Error.ErrModuleIsNotAvailable) store1 store1 school1 ⟨99⟩
    Error.ErrModuleIsNotAvailable rfl
  have e1 : (GetByModule memEnv store1 school1 ⟨99⟩).result = .error errNoDocuments := rfl
  have e2 : (GetByModule (failingModulesEnv Error.ErrModuleIsNotAvailable) store1 school1
      ⟨99⟩).result = .error Error.ErrModuleIsNotAvailable := rfl
  rw [e1] at h1
  rw [e2] at h2
  have h3 : errNoDocuments = notFound := by injection h1
  have h4 : Error.ErrModuleIsNotAvailable = notFound := by injection h2
  have h5 : errNoDocuments = Error.ErrModuleIsNotAvailable := h3.trans h4.symm
  exact absurd h5 (by decide)

end OffersService


/-! ## Create and Update -/

theorem stringArrayToObjectIdLoop_of_valid (fromHex : String → Except Error ObjectID)
    (z : ObjectID) (rest : List String) (done : List ObjectID)
    (hvalid : ∀ x ∈ rest, ∃ oid, fromHex x = .ok oid) :
    stringArrayToObjectIdLoop fromHex rest done.length (done ++ List.replicate rest.length z)
      = .ok (done ++ rest.map (fun x => (fromHex x).toOption.getD NilObjectID)) := by
  induction rest generalizing done with
  | nil => simp [stringArrayToObjectIdLoop]
  | cons x rest ih =>
    obtain ⟨oid, hx⟩ := hvalid x (List.mem_cons_self x rest)
    have hset : (done ++ List.replicate (rest.length + 1) z).set done.length oid
        = (done ++ [oid]) ++ List.replicate rest.length z := by
      simp [List.set_append, List.replicate_succ]
    have hlen : done.length + 1 = (done ++ [oid]).length := by simp
    simp only [stringArrayToObjectIdLoop, List.length_cons, hx]
    rw [hset, hlen, ih (done ++ [oid]) (fun y hy => hvalid y (List.mem_cons_of_mem x hy))]
    simp [hx, Except.toOption]

theorem stringArrayToObjectIdLoop_of_invalid (fromHex : String → Except Error ObjectID)
    (rest : List String) (i : Nat) (ids : List ObjectID)
    (hbad : ∃ x ∈ rest, ∃ e, fromHex x = .error e) :
    ∃ err, stringArrayToObjectIdLoop fromHex rest i ids = .error err := by
  induction rest generalizing i ids with
  | nil => simp at hbad
  | cons x rest ih =>
    cases hx : fromHex x with
    | error e => exact ⟨e, by simp [stringArrayToObjectIdLoop, hx]⟩
    | ok oid =>
      obtain ⟨y, hy, e, he⟩ := hbad
      have hyrest : y ∈ rest := by
        rcases List.mem_cons.mp hy with h | h
        · rw [h, hx] at he
          cases he
        · exact h
      obtain ⟨err, herr⟩ := ih (i + 1) (ids.set i oid) ⟨y, hyrest, e, he⟩
      exact ⟨err, by simp [stringArrayToObjectIdLoop, hx, herr]⟩

theorem stringArrayToObjectId_of_valid (fromHex : String → Except Error ObjectID)
    (stringIds : Slice String) (hvalid : ∀ x ∈ stringIds.elems, ∃ oid, fromHex x = .ok oid) :
    stringArrayToObjectId fromHex stringIds
      = .ok (Slice.of (stringIds.elems.map (fun x => (fromHex x).toOption.getD NilObjectID))) := by
  have h := stringArrayToObjectIdLoop_of_valid fromHex NilObjectID stringIds.elems [] hvalid
  simp only [List.length_nil, List.nil_append] at h
  simp [stringArrayToObjectId, Slice.len, h]

theorem stringArrayToObjectId_of_invalid (fromHex : String → Except Error ObjectID)
    (stringIds : Slice String) (hbad : ∃ x ∈ stringIds.elems, ∃ e, fromHex x = .error e) :
    ∃ err, stringArrayToObjectId fromHex stringIds = .error err := by
  obtain ⟨err, herr⟩ := stringArrayToObjectIdLoop_of_invalid fromHex stringIds.elems 0
    (List.replicate stringIds.len NilObjectID) hbad
  exact ⟨err, by simp [stringArrayToObjectId, herr]⟩

namespace OffersService

theorem Update_of_nil {σ : Type} (env : Env σ) (s : σ) (inp : UpdateOfferInput)
    (id schoolId : ObjectID) (hid : env.ObjectIDFromHex inp.ID = .ok id)
    (hschool : env.ObjectIDFromHex inp.SchoolID = .ok schoolId)
    (hnil : inp.Packages = Slice.nil) :
    Update env s inp
      = ⟨(env.repoUpdate s ⟨id, schoolId, inp.Name, inp.Description, inp.Price, inp.Benefits,
            Slice.nil⟩).1,
          (env.repoUpdate s ⟨id, schoolId, inp.Name, inp.Description, inp.Price, inp.Benefits,
            Slice.nil⟩).2,
          [Call.repoUpdate ⟨id, schoolId, inp.Name, inp.Description, inp.Price, inp.Benefits,
            Slice.nil⟩]⟩ := by
  simp [Update, hid, hschool, hnil, Slice.nonNil]

theorem Update_of_valid {σ : Type} (env : Env σ) (s : σ) (inp : UpdateOfferInput)
    (id schoolId : ObjectID) (strs : List String) (hid : env.ObjectIDFromHex inp.ID = .ok id)
    (hschool : env.ObjectIDFromHex inp.SchoolID = .ok schoolId)
    (hof : inp.Packages = Slice.of strs)
    (hvalid : ∀ x ∈ strs, ∃ oid, env.ObjectIDFromHex x = .ok oid) :
    Update env s inp
      = ⟨(env.repoUpdate s ⟨id, schoolId, inp.Name, inp.Description, inp.Price, inp.Benefits,
            Slice.of (strs.map (fun x => (env.ObjectIDFromHex x).toOption.getD NilObjectID))⟩).1,
          (env.repoUpdate s ⟨id, schoolId, inp.Name, inp.Description, inp.Price, inp.Benefits,
            Slice.of (strs.map (fun x => (env.ObjectIDFromHex x).toOption.getD NilObjectID))⟩).2,
          [Call.repoUpdate ⟨id, schoolId, inp.Name, inp.Description, inp.Price, inp.Benefits,
            Slice.of
              (strs.map (fun x => (env.ObjectIDFromHex x).toOption.getD NilObjectID))⟩]⟩ := by
  have hconv := stringArrayToObjectId_of_valid env.ObjectIDFromHex (Slice.of strs)
    (by simpa [Slice.elems] using hvalid)
  simp only [Slice.elems] at hconv
  simp [Update, hid, hschool, hof, Slice.nonNil, hconv]

theorem Update_of_invalid {σ : Type} (env : Env σ) (s : σ) (inp : UpdateOfferInput)
    (hbad : (∃ e, env.ObjectIDFromHex inp.ID = .error e)
      ∨ (∃ e, env.ObjectIDFromHex inp.SchoolID = .error e)
      ∨ (∃ x ∈ inp.Packages.elems, ∃ e, env.ObjectIDFromHex x = .error e)) :
    ∃ err, Update env s inp = ⟨.error err, s, []⟩ := by
  cases hid : env.ObjectIDFromHex inp.ID with
  | error e => exact ⟨e, by simp [Update, hid]⟩
  | ok id =>
    cases hschool : env.ObjectIDFromHex inp.SchoolID with
    | error e => exact ⟨e, by simp [Update, hid, hschool]⟩
    | ok schoolId =>
      rcases hbad with ⟨e, he⟩ | ⟨e, he⟩ | hpk
      · rw [hid] at he
        cases he
      · rw [hschool] at he
        cases he
      · obtain ⟨err, herr⟩ := stringArrayToObjectId_of_invalid env.ObjectIDFromHex
          inp.Packages hpk
        have hnon : inp.Packages.nonNil = true := by
          obtain ⟨x, hx, _⟩ := hpk
          cases hp : inp.Packages with
          | nil => simp [hp, Slice.elems] at hx
          | of items => rfl
        exact ⟨err, by simp [Update, hid, hschool, hnon, herr]⟩

end OffersService


namespace OffersService

/-- C7, as the code has it: `Create` checks nothing. For every input it hands
the offer built from the input (school, name, description, benefits and price
copied, every other field zero) to the repository in one call and returns the
result and the store of that call unchanged. -/
theorem Create_passes_input_to_repository {σ : Type} (env : Env σ) (s : σ)
    (inp : CreateOfferInput) :
    (Create env s inp).calls
        = [Call.repoCreate ⟨NilObjectID, inp.Name, inp.Description, inp.Benefits, inp.SchoolID,
            Slice.nil, inp.Price⟩]
      ∧ (Create env s inp).result
        = (env.repoCreate s ⟨NilObjectID, inp.Name, inp.Description, inp.Benefits, inp.SchoolID,
            Slice.nil, inp.Price⟩).1
      ∧ (Create env s inp).state
        = (env.repoCreate s ⟨NilObjectID, inp.Name, inp.Description, inp.Benefits, inp.SchoolID,
            Slice.nil, inp.Price⟩).2 :=
  ⟨rfl, rfl, rfl⟩

/-- C7 as stated fails: an input with the empty currency and the amount -5 is
handed to the repository, and `Create` returns the identifier the repository
gives the new offer; so it is not true that every such input is rejected with
nothing handed to the repository. -/
theorem Create_accepts_empty_currency_and_negative_amount :
    badPriceInput.Price.Currency = ""
      ∧ badPriceInput.Price.Value < 0
      ∧ (Create memEnv store1 badPriceInput).result = .ok ⟨1003⟩
      ∧ (Create memEnv store1 badPriceInput).calls
          = [Call.repoCreate ⟨NilObjectID, "Broken", "", Slice.nil, school1, Slice.nil, ⟨-5, ""⟩⟩]
      ∧ ¬ ∀ (env : Env Store) (s : Store) (inp : CreateOfferInput),
          inp.Price.Currency = "" ∨ inp.Price.Value < 0 →
          (∃ err, (Create env s inp).result = .error err) ∧ (Create env s inp).calls = [] := by
  refine ⟨rfl, by decide, rfl, rfl, ?_⟩
  intro hall
  have h := (hall memEnv store1 badPriceInput (Or.inl rfl)).2
  have hcalls : (Create memEnv store1 badPriceInput).calls
      = [Call.repoCreate (offerOfInput badPriceInput)] := rfl
  rw [hcalls] at h
  cases h

/-- C8: with an ID and a SchoolID that parse, a nil `Packages` list gives one
repository update whose `Packages` is nil, and a non-nil list of strings that
all parse (the empty list included) gives one repository update whose
`Packages` is a non-nil list of the same length, its `i`-th element being the
identifier parsed from the `i`-th string. -/
theorem Update_packages_nil_or_replaced {σ : Type} (env : Env σ) (s : σ)
    (inp : UpdateOfferInput) (id schoolId : ObjectID)
    (hid : env.ObjectIDFromHex inp.ID = .ok id)
    (hschool : env.ObjectIDFromHex inp.SchoolID = .ok schoolId) :
    (inp.Packages = Slice.nil →
        ∃ u : repository.UpdateOfferInput,
          (Update env s inp).calls = [Call.repoUpdate u] ∧ u.Packages = Slice.nil)
      ∧ (∀ strs : List String, inp.Packages = Slice.of strs →
          (∀ x ∈ strs, ∃ oid, env.ObjectIDFromHex x = .ok oid) →
          ∃ (u : repository.UpdateOfferInput) (ids : List ObjectID),
            (Update env s inp).calls = [Call.repoUpdate u]
              ∧ u.Packages = Slice.of ids
              ∧ ids.length = strs.length
              ∧ ∀ (i : Nat) (h1 : i < strs.length) (h2 : i < ids.length),
                  env.ObjectIDFromHex strs[i] = .ok ids[i]) := by
  constructor
  · intro hnil
    rw [Update_of_nil env s inp id schoolId hid hschool hnil]
    exact ⟨_, rfl, rfl⟩
  · intro strs hof hvalid
    rw [Update_of_valid env s inp id schoolId strs hid hschool hof hvalid]
    refine ⟨_, strs.map (fun x => (env.ObjectIDFromHex x).toOption.getD NilObjectID),
      rfl, rfl, by simp, ?_⟩
    intro i h1 h2
    obtain ⟨oid, hoid⟩ := hvalid strs[i] (List.getElem_mem h1)
    simp [hoid, Except.toOption]

/-- C8 at the sample store: no `Packages` list leaves the field nil, the empty
list arrives as the empty non-nil list, and two hex strings arrive as the two
identifiers 11 and 12. -/
theorem Update_packages_nil_or_replaced_witness :
    memEnv.ObjectIDFromHex updateNoPackages.ID = .ok ⟨101⟩
      ∧ memEnv.ObjectIDFromHex updateNoPackages.SchoolID = .ok ⟨1⟩
      ∧ (∃ u : repository.UpdateOfferInput,
          (Update memEnv store1 updateNoPackages).calls = [Call.repoUpdate u]
            ∧ u.Packages = Slice.nil)
      ∧ (∃ (u : repository.UpdateOfferInput) (ids : List ObjectID),
          (Update memEnv store1 updateEmptyPackages).calls = [Call.repoUpdate u]
            ∧ u.Packages = Slice.of ids
            ∧ ids.length = ([] : List String).length
            ∧ ∀ (i : Nat) (h1 : i < ([] : List String).length) (h2 : i < ids.length),
                memEnv.ObjectIDFromHex ([] : List String)[i] = .ok ids[i])
      ∧ (Update memEnv store1 updateTwoPackages).calls
          = [Call.repoUpdate ⟨⟨101⟩, ⟨1⟩, "", "New text", none, Slice.nil,
              Slice.of [⟨11⟩, ⟨12⟩]⟩] :=
  ⟨rfl, rfl,
    (Update_packages_nil_or_replaced memEnv store1 updateNoPackages ⟨101⟩ ⟨1⟩ rfl rfl).1 rfl,
    (Update_packages_nil_or_replaced memEnv store1 updateEmptyPackages ⟨101⟩ ⟨1⟩ rfl rfl).2
      [] rfl (fun x hx => absurd hx (List.not_mem_nil x)),
    rfl⟩

/-- C9: with an ID and a SchoolID that parse, every repository update the
service issues carries the parsed ID and SchoolID and the Name, Description,
Benefits and Price of the service input unchanged (an empty name or
description, a nil benefits list and a nil price stay empty or nil); and the
update is issued, once, whenever the `Packages` list is nil or all of its
strings parse. -/
theorem Update_passes_fields_unchanged {σ : Type} (env : Env σ) (s : σ)
    (inp : UpdateOfferInput) (id schoolId : ObjectID)
    (hid : env.ObjectIDFromHex inp.ID = .ok id)
    (hschool : env.ObjectIDFromHex inp.SchoolID = .ok schoolId) :
    (∀ u : repository.UpdateOfferInput, Call.repoUpdate u ∈ (Update env s inp).calls →
        u.ID = id ∧ u.SchoolID = schoolId ∧ u.Name = inp.Name
          ∧ u.Description = inp.Description ∧ u.Benefits = inp.Benefits
          ∧ u.Price = inp.Price)
      ∧ ((∀ x ∈ inp.Packages.elems, ∃ oid, env.ObjectIDFromHex x = .ok oid) →
          ∃ u : repository.UpdateOfferInput, (Update env s inp).calls = [Call.repoUpdate u]) := by
  by_cases hvalid : ∀ x ∈ inp.Packages.elems, ∃ oid, env.ObjectIDFromHex x = .ok oid
  · cases hp : inp.Packages with
    | nil =>
      rw [Update_of_nil env s inp id schoolId hid hschool hp]
      refine ⟨?_, fun _ => ⟨_, rfl⟩⟩
      intro u hu
      simp only [List.mem_singleton, Call.repoUpdate.injEq] at hu
      subst hu
      exact ⟨rfl, rfl, rfl, rfl, rfl, rfl⟩
    | of strs =>
      rw [Update_of_valid env s inp id schoolId strs hid hschool hp
        (by simpa [hp, Slice.elems] using hvalid)]
      refine ⟨?_, fun _ => ⟨_, rfl⟩⟩
      intro u hu
      simp only [List.mem_singleton, Call.repoUpdate.injEq] at hu
      subst hu
      exact ⟨rfl, rfl, rfl, rfl, rfl, rfl⟩
  · refine ⟨?_, fun h => absurd h hvalid⟩
    have hbad : ∃ x ∈ inp.Packages.elems, ∃ e, env.ObjectIDFromHex x = .error e := by
      by_contra hnone
      apply hvalid
      intro x hx
      cases hfx : env.ObjectIDFromHex x with
      | error e => exact absurd ⟨x, hx, e, hfx⟩ hnone
      | ok oid => exact ⟨oid, rfl⟩
    obtain ⟨err, herr⟩ := Update_of_invalid env s inp (Or.inr (Or.inr hbad))
    rw [herr]
    intro u hu
    simp at hu

/-- C9 at the sample store: the update leaves Name empty and Benefits and Price
nil; the repository receives them empty and nil, next to the new description. -/
theorem Update_passes_fields_unchanged_witness :
    memEnv.ObjectIDFromHex updateTwoPackages.ID = .ok ⟨101⟩
      ∧ memEnv.ObjectIDFromHex updateTwoPackages.SchoolID = .ok ⟨1⟩
      ∧ (∀ u : repository.UpdateOfferInput,
          Call.repoUpdate u ∈ (Update memEnv store1 updateTwoPackages).calls →
          u.ID = ⟨101⟩ ∧ u.SchoolID = ⟨1⟩ ∧ u.Name = "" ∧ u.Description = "New text"
            ∧ u.Benefits = Slice.nil ∧ u.Price = none)
      ∧ (∃ u : repository.UpdateOfferInput,
          (Update memEnv store1 updateTwoPackages).calls = [Call.repoUpdate u]) :=
  ⟨rfl, rfl,
    (Update_passes_fields_unchanged memEnv store1 updateTwoPackages ⟨101⟩ ⟨1⟩ rfl rfl).1,
    (Update_passes_fields_unchanged memEnv store1 updateTwoPackages ⟨101⟩ ⟨1⟩ rfl rfl).2
      (fun x hx => by
        have hx2 : x = "00000000000000000000000b" ∨ x = "00000000000000000000000c" := by
          simpa [updateTwoPackages, Slice.elems] using hx
        rcases hx2 with h | h
        · exact ⟨⟨11⟩, by rw [h]; rfl⟩
        · exact ⟨⟨12⟩, by rw [h]; rfl⟩)⟩

/-- C10: if the ID, the SchoolID or an element of the `Packages` list does not
parse, `Update` returns an error, calls no collaborator and leaves the store as
it was; if all of them parse, the repository `Update` is called exactly once
and its result and store are what `Update` returns. -/
theorem Update_all_or_nothing {σ : Type} (env : Env σ) (s : σ) (inp : UpdateOfferInput) :
    ((∃ e, env.ObjectIDFromHex inp.ID = .error e)
          ∨ (∃ e, env.ObjectIDFromHex inp.SchoolID = .error e)
          ∨ (∃ x ∈ inp.Packages.elems, ∃ e, env.ObjectIDFromHex x = .error e) →
        (∃ err, (Update env s inp).result = .error err)
          ∧ (Update env s inp).calls = []
          ∧ (Update env s inp).state = s)
      ∧ ((∃ id, env.ObjectIDFromHex inp.ID = .ok id) →
          (∃ schoolId, env.ObjectIDFromHex inp.SchoolID = .ok schoolId) →
          (∀ x ∈ inp.Packages.elems, ∃ oid, env.ObjectIDFromHex x = .ok oid) →
          ∃ u : repository.UpdateOfferInput,
            (Update env s inp).calls = [Call.repoUpdate u]
              ∧ (Update env s inp).result = (env.repoUpdate s u).1
              ∧ (Update env s inp).state = (env.repoUpdate s u).2) := by
  constructor
  · intro hbad
    obtain ⟨err, herr⟩ := Update_of_invalid env s inp hbad
    rw [herr]
    exact ⟨⟨err, rfl⟩, rfl, rfl⟩
  · rintro ⟨id, hid⟩ ⟨schoolId, hschool⟩ hvalid
    cases hp : inp.Packages with
    | nil =>
      rw [Update_of_nil env s inp id schoolId hid hschool hp]
      exact ⟨_, rfl, rfl, rfl⟩
    | of strs =>
      rw [Update_of_valid env s inp id schoolId strs hid hschool hp
        (by simpa [hp, Slice.elems] using hvalid)]
      exact ⟨_, rfl, rfl, rfl⟩

/-- C10 at the sample store: a second package string that is not hexadecimal
makes the whole update fail with no repository call, although the first
string parses; the update without a `Packages` list reaches the repository
once. -/
theorem Update_all_or_nothing_witness :
    ((∃ err, (Update memEnv store1 updateBadPackage).result = .error err)
        ∧ (Update memEnv store1 updateBadPackage).calls = []
        ∧ (Update memEnv store1 updateBadPackage).state = store1)
      ∧ (∃ u : repository.UpdateOfferInput,
          (Update memEnv store1 updateNoPackages).calls = [Call.repoUpdate u]
            ∧ (Update memEnv store1 updateNoPackages).result = (memEnv.repoUpdate store1 u).1
            ∧ (Update memEnv store1 updateNoPackages).state = (memEnv.repoUpdate store1 u).2) :=
  ⟨(Update_all_or_nothing memEnv store1 updateBadPackage).1
      (Or.inr (Or.inr ⟨"not hex", by simp [updateBadPackage, Slice.elems], _, rfl⟩)),
    (Update_all_or_nothing memEnv store1 updateNoPackages).2 ⟨_, rfl⟩ ⟨_, rfl⟩
      (fun x hx => absurd hx (List.not_mem_nil x))⟩

end OffersService


end Courses
